import Mathlib

/-!
# Entra ID OIDC relying party (`src/index.js`): shallow embedding

The Express application of `src/index.js` is embedded as pure functions:

* JavaScript strings are Lean strings (sequences of Unicode scalar values);
* the values `JSON.parse` can build are `JSValue`;
* a route handler is a function from the parts of the request it reads, the
  session record and the outcome of the one outbound call to the response,
  the new session record and the list of outbound calls made;
* a synchronous `TypeError` thrown inside a handler is `Except.error`.

Library behaviour the handlers rely on (Node's `querystring`, `Buffer`,
axios' status check, cookie-parser, express-session's memory store) is
written out next to the handler that uses it.
-/

namespace EntraOidc

/-! ## Values -/

/-- Values that `JSON.parse` produces; also what axios hands over as
`response.data` (a body that is not JSON stays a `str`). -/
inductive JSValue where
  | null
  | bool (b : Bool)
  | num (x : Rat)
  | str (s : String)
  | arr (items : List JSValue)
  | obj (fields : List (String × JSValue))

/-- Values of `req.query` entries under Express' default query parser:
strings, arrays and nested objects; an absent key is `none` at the use site. -/
inductive QueryValue where
  | str (s : String)
  | arr (items : List QueryValue)
  | obj (fields : List (String × QueryValue))

/-- An entry of `req.signedCookies` (cookie-parser): `undefined` when no signed
cookie of that name came in, `false` when its signature does not verify, the
signed string otherwise. -/
inductive SignedCookie where
  | absent
  | invalid
  | str (s : String)

/-- The configuration the process runs with: the `config` object of lines 14-19
and the secret handed to cookie-parser on line 28; each of the three environment
variables may be unset. -/
structure Config where
  clientId : Option String
  clientSecret : Option String
  redirectUri : String
  scope : List String
  cookieSecret : Option String

/-- The constants of lines 17-18 around the environment values `CLIENT_ID`,
`CLIENT_SECRET_VALUE` and `COOKIE_SECRET`. -/
def config (clientId clientSecret cookieSecret : Option String) : Config :=
  { clientId := clientId
    clientSecret := clientSecret
    redirectUri := "http://localhost:3000/auth/callback"
    scope := ["openid", "email", "profile"]
    cookieSecret := cookieSecret }

/-- The session record; `tokenSet` is `none` until the callback stores one. -/
structure Session where
  tokenSet : Option JSValue

/-- A cookie set on a response with `res.cookie`. -/
structure SetCookie where
  name : String
  value : String
  maxAge : Nat
  signed : Bool

/-- What a handler sends: `res.send` / `res.status(n).send` or `res.redirect`. -/
inductive Payload where
  | html (body : String)
  | redirect (location : String)

/-- The HTTP response of a handler. -/
structure Response where
  status : Nat
  payload : Payload
  cookies : List SetCookie

/-- Express' `res.send(body)`: status 200. -/
def Response.send (body : String) : Response :=
  { status := 200, payload := Payload.html body, cookies := [] }

/-- Express' `res.status(n).send(body)`. -/
def Response.statusSend (n : Nat) (body : String) : Response :=
  { status := n, payload := Payload.html body, cookies := [] }

/-- Express' `res.redirect(url)`: status 302 with the location. The locations the
handlers pass consist of characters that Express' URL encoding keeps as they are. -/
def Response.redirectTo (url : String) : Response :=
  { status := 302, payload := Payload.redirect url, cookies := [] }

/-! ## UTF-8 and hexadecimal -/

/-- UTF-8 bytes of one scalar value. -/
def utf8EncodeChar (c : Char) : List Nat :=
  let n := c.toNat
  if n < 0x80 then [n]
  else if n < 0x800 then [0xC0 + n / 64, 0x80 + n % 64]
  else if n < 0x10000 then [0xE0 + n / 4096, 0x80 + n / 64 % 64, 0x80 + n % 64]
  else [0xF0 + n / 262144, 0x80 + n / 4096 % 64, 0x80 + n / 64 % 64, 0x80 + n % 64]

/-- UTF-8 bytes of a text. -/
def utf8Encode (s : List Char) : List Nat :=
  s.flatMap utf8EncodeChar

/-- One hexadecimal digit, lower case. -/
def hexDigitLower (n : Nat) : Char :=
  if n < 10 then Char.ofNat (48 + n) else Char.ofNat (87 + n)

/-- One hexadecimal digit, upper case. -/
def hexDigitUpper (n : Nat) : Char :=
  if n < 10 then Char.ofNat (48 + n) else Char.ofNat (55 + n)

/-- Node's `buffer.toString('hex')`: two lower-case digits per byte. -/
def toHex (buffer : List Nat) : List Char :=
  buffer.flatMap fun b => [hexDigitLower (b % 256 / 16), hexDigitLower (b % 16)]

/-! ## `querystring.stringify` -/

/-- The `noEscape` table of Node's `querystring`: `A-Z a-z 0-9 - _ . ! ~ * ' ( )`. -/
def noEscape (c : Char) : Bool :=
  c.isAlphanum || c == '-' || c == '_' || c == '.' || c == '!' || c == '~' ||
    c == '*' || c == Char.ofNat 39 || c == '(' || c == ')'

/-- An entry of the `hexTable`: `%` and two upper-case digits. -/
def hexTable (b : Nat) : List Char :=
  ['%', hexDigitUpper (b / 16), hexDigitUpper (b % 16)]

/-- Node's `querystring.escape` on one character: kept when the table allows it,
otherwise each UTF-8 byte percent-encoded. -/
def qsEscapeChar (c : Char) : List Char :=
  if c.toNat < 0x80 && noEscape c then [c] else (utf8EncodeChar c).flatMap hexTable

/-- Node's `querystring.escape`. -/
def qsEscape (s : String) : String :=
  String.mk (s.data.flatMap qsEscapeChar)

/-- The six-entry objects passed to `qs.stringify` hold these values: a string,
`undefined`, or whatever `req.query.code` is. -/
inductive ParamValue where
  | undefined
  | str (s : String)
  | query (v : QueryValue)

/-- Node's `encodeStringified` on an array element or a scalar entry: strings are
escaped, everything that is not a primitive becomes the empty string. -/
def encodeStringified : QueryValue → String
  | QueryValue.str s => qsEscape s
  | _ => ""

/-- The `key=value` fields one entry contributes: one per element for an array
(none for an empty array), one otherwise. -/
def stringifyEntry (k : String) (v : ParamValue) : List String :=
  match v with
  | ParamValue.undefined => [qsEscape k ++ "="]
  | ParamValue.str s => [qsEscape k ++ "=" ++ qsEscape s]
  | ParamValue.query (QueryValue.arr items) =>
      items.map fun item => qsEscape k ++ "=" ++ encodeStringified item
  | ParamValue.query q => [qsEscape k ++ "=" ++ encodeStringified q]

/-- Node's `qs.stringify(obj)`: the fields of all entries joined with `&`. -/
def qsStringify (entries : List (String × ParamValue)) : String :=
  "&".intercalate (entries.flatMap fun e => stringifyEntry e.1 e.2)

/-- The expression `config.scope.join(" ")`. -/
def joinScope (scope : List String) : String :=
  " ".intercalate scope

/-- An optional environment string as a parameter value. -/
def ParamValue.ofEnv : Option String → ParamValue
  | none => ParamValue.undefined
  | some s => ParamValue.str s

/-! ## `/auth/callback` -/

/-- The request `axios.post(url, body, { headers })` sends. -/
structure OutboundPost where
  url : String
  body : String
  contentType : String

/-- What comes back from the token endpoint: a response with its status and
parsed body, or no response at all. -/
inductive NetReply where
  | response (status : Nat) (data : JSValue)
  | networkError

/-- The promise `axios.post` returns resolves with the response when the status
passes the default `validateStatus` (`status >= 200 && status < 300`) and
rejects otherwise. -/
def axiosPost (net : OutboundPost → NetReply) (req : OutboundPost) : Except String JSValue :=
  match net req with
  | NetReply.response status data =>
      if 200 ≤ status ∧ status < 300 then Except.ok data
      else Except.error "Request failed with status code"
  | NetReply.networkError => Except.error "Network Error"

/-- The test `stateParam !== state` of line 66 between the signed cookie entry
and the query entry. -/
def strictNe (stateParam : SignedCookie) (state : Option QueryValue) : Bool :=
  match stateParam, state with
  | SignedCookie.absent, none => false
  | SignedCookie.str a, some (QueryValue.str b) => a != b
  | _, _ => true

/-- The outcome of running the callback handler. -/
structure CallbackResult where
  response : Response
  session : Session
  outbound : List OutboundPost
  log : List String

/-- The body of the token request, lines 73-80 and 83. -/
def tokenRequest (cfg : Config) (code : Option QueryValue) : OutboundPost :=
  { url := "https://login.microsoftonline.com/common/oauth2/v2.0/token?"
    body := qsStringify
      [("client_id", ParamValue.ofEnv cfg.clientId),
       ("scope", ParamValue.str (joinScope cfg.scope)),
       ("code", match code with
                | none => ParamValue.undefined
                | some q => ParamValue.query q),
       ("redirect_uri", ParamValue.str cfg.redirectUri),
       ("grant_type", ParamValue.str "authorization_code"),
       ("client_secret", ParamValue.ofEnv cfg.clientSecret)]
    contentType := "application/x-www-form-urlencoded" }

/-- The handler of `GET /auth/callback`, lines 62-96. -/
def authCallback (cfg : Config) (net : OutboundPost → NetReply)
    (code state : Option QueryValue) (stateParam : SignedCookie) (session : Session) :
    CallbackResult :=
  if strictNe stateParam state then
    { response := Response.statusSend 422 "Invalid State"
      session := session
      outbound := []
      log := [] }
  else
    let req := tokenRequest cfg code
    match axiosPost net req with
    | Except.ok data =>
        { response := Response.redirectTo "/profile"
          session := { session with tokenSet := some data }
          outbound := [req]
          log := [] }
    | Except.error e =>
        { response := Response.redirectTo "/"
          session := session
          outbound := [req]
          log := ["Token exchange error: " ++ e] }

/-! ## `/auth` -/

/-- A synchronous exception escaping a handler. -/
inductive Thrown where
  | typeError (message : String)
  | error (message : String)

/-- Whether `res.cookie` can sign: cookie-parser left a secret on the request,
which it does for a secret that is set and not empty. -/
def canSign (cookieSecret : Option String) : Bool :=
  match cookieSecret with
  | some secret => secret != ""
  | none => false

/-- The handler of `GET /auth`, lines 37-56. `buffer` is what
`crypto.randomBytes(24, cb)` passes to the callback: the bytes, or `undefined`
next to an error, on which `buffer.toString` throws. `res.cookie` with
`signed: true` throws when no secret is available. -/
def auth (cfg : Config) (buffer : Option (List Nat)) : Except Thrown Response :=
  match buffer with
  | none => Except.error (Thrown.typeError "Cannot read properties of undefined (reading 'toString')")
  | some bytes =>
    if !canSign cfg.cookieSecret then
      Except.error (Thrown.error "cookieParser(\"secret\") required for signed cookies")
    else
      let stateParam := String.mk (toHex bytes)
      let authUrl := "https://login.microsoftonline.com/common/oauth2/v2.0/authorize?" ++
        qsStringify
          [("client_id", ParamValue.ofEnv cfg.clientId),
           ("response_type", ParamValue.str "code"),
           ("redirect_uri", ParamValue.str cfg.redirectUri),
           ("response_mode", ParamValue.str "query"),
           ("scope", ParamValue.str (joinScope cfg.scope)),
           ("state", ParamValue.str stateParam)]
      Except.ok
        { status := 302
          payload := Payload.redirect authUrl
          cookies := [{ name := "stateParam", value := stateParam,
                        maxAge := 1000 * 60 * 5, signed := true }] }

/-! ## `/profile` -/

/-- JavaScript's `String.prototype.split` with a one-character separator. -/
def splitOn (sep : Char) : List Char → List (List Char)
  | [] => [[]]
  | c :: cs =>
      if c = sep then [] :: splitOn sep cs
      else
        match splitOn sep cs with
        | [] => [[c]]
        | seg :: segs => (c :: seg) :: segs

/-- UTF-16 code units of one scalar value, the units of a JavaScript string. -/
def utf16Units (c : Char) : List Nat :=
  let n := c.toNat
  if n < 0x10000 then [n]
  else [0xD800 + (n - 0x10000) / 1024, 0xDC00 + (n - 0x10000) % 1024]

/-- The `unbase64` table of Node's decoder on a byte: both the standard and the
URL-safe alphabet are legal, every other byte is not. -/
def unbase64 (x : Nat) : Option Nat :=
  if 65 ≤ x ∧ x ≤ 90 then some (x - 65)
  else if 97 ≤ x ∧ x ≤ 122 then some (x - 71)
  else if 48 ≤ x ∧ x ≤ 57 then some (x + 4)
  else if x = 43 ∨ x = 45 then some 62
  else if x = 47 ∨ x = 95 then some 63
  else none

/-- The legal characters the decoder reads, as 6-bit values: each code unit is
narrowed to a byte, an illegal one is skipped, and `=` ends the input. -/
def base64Sextets : List Nat → List Nat
  | [] => []
  | u :: us =>
      match unbase64 (u % 256) with
      | some v => v :: base64Sextets us
      | none => if u % 256 = 61 then [] else base64Sextets us

/-- Bytes out of 6-bit values: three per full group of four, two for a rest of
three, one for a rest of two, none for a rest of one. -/
def base64Groups : List Nat → List Nat
  | a :: b :: c :: d :: rest =>
      (a * 4 + b / 16) :: (b % 16 * 16 + c / 4) :: (c % 4 * 64 + d) :: base64Groups rest
  | [a, b, c] => [a * 4 + b / 16, b % 16 * 16 + c / 4]
  | [a, b] => [a * 4 + b / 16]
  | _ => []

/-- Node's `Buffer.from(s, "base64")`: the bytes the decoder writes. -/
def bufferFromBase64 (s : List Char) : List Nat :=
  base64Groups (base64Sextets (s.flatMap utf16Units))

/-- State of the UTF-8 decoder between bytes. -/
structure Utf8State where
  codePoint : Nat
  needed : Nat
  seen : Nat
  lower : Nat
  upper : Nat

/-- The decoder state outside a multi-byte sequence. -/
def Utf8State.initial : Utf8State :=
  { codePoint := 0, needed := 0, seen := 0, lower := 0x80, upper := 0xBF }

/-- The replacement character U+FFFD. -/
def replacementChar : Char := Char.ofNat 0xFFFD

/-- The decoder on a byte that starts a sequence. -/
def utf8Lead (b : Nat) : Utf8State × List Char :=
  if b ≤ 0x7F then (Utf8State.initial, [Char.ofNat b])
  else if 0xC2 ≤ b ∧ b ≤ 0xDF then
    ({ codePoint := b % 32, needed := 1, seen := 0, lower := 0x80, upper := 0xBF }, [])
  else if 0xE0 ≤ b ∧ b ≤ 0xEF then
    ({ codePoint := b % 16, needed := 2, seen := 0,
       lower := if b = 0xE0 then 0xA0 else 0x80,
       upper := if b = 0xED then 0x9F else 0xBF }, [])
  else if 0xF0 ≤ b ∧ b ≤ 0xF4 then
    ({ codePoint := b % 8, needed := 3, seen := 0,
       lower := if b = 0xF0 then 0x90 else 0x80,
       upper := if b = 0xF4 then 0x8F else 0xBF }, [])
  else (Utf8State.initial, [replacementChar])

/-- One byte through the decoder: the next state and the characters emitted.
A byte that cannot continue the open sequence yields U+FFFD and is then read
as the start of a new sequence. -/
def utf8Step (st : Utf8State) (b : Nat) : Utf8State × List Char :=
  if st.needed = 0 then utf8Lead b
  else if b < st.lower ∨ st.upper < b then
    ((utf8Lead b).1, replacementChar :: (utf8Lead b).2)
  else if st.seen + 1 = st.needed then
    (Utf8State.initial, [Char.ofNat (st.codePoint * 64 + b % 64)])
  else
    ({ codePoint := st.codePoint * 64 + b % 64, needed := st.needed,
       seen := st.seen + 1, lower := 0x80, upper := 0xBF }, [])

/-- The decoder over a byte sequence; an unfinished sequence at the end yields
U+FFFD. -/
def utf8DecodeFrom : Utf8State → List Nat → List Char
  | st, [] => if st.needed = 0 then [] else [replacementChar]
  | st, b :: bs => (utf8Step st b).2 ++ utf8DecodeFrom (utf8Step st b).1 bs

/-- Node's `buffer.toString("utf8")`. -/
def bufferToUtf8 (bytes : List Nat) : List Char :=
  utf8DecodeFrom Utf8State.initial bytes

/-- JavaScript truthiness of a stored value. -/
def JSValue.truthy : JSValue → Bool
  | JSValue.null => false
  | JSValue.bool b => b
  | JSValue.num x => x != 0
  | JSValue.str s => s != ""
  | JSValue.arr _ => true
  | JSValue.obj _ => true

/-- Reading the property `key` off a truthy value, as the destructuring of line
105 does: an own property of an object, `undefined` on anything else. -/
def JSValue.getProp (key : String) : JSValue → Option JSValue
  | JSValue.obj fields => fields.lookup key
  | _ => none

/-- The handler of `GET /profile`, lines 100-116. -/
def profile (session : Session) : Except Thrown Response :=
  match session.tokenSet with
  | none => Except.ok (Response.redirectTo "/")
  | some tokenSet =>
      if !tokenSet.truthy then Except.ok (Response.redirectTo "/")
      else
        match tokenSet.getProp "id_token" with
        | some (JSValue.str idToken) =>
            match (splitOn '.' idToken.data).get? 1 with
            | some body =>
                let string := String.mk (bufferToUtf8 (bufferFromBase64 body))
                Except.ok (Response.send
                  ("<h1>Profile</h1><span>" ++ string ++
                    "</span><br><br><a href=\"/logout\">logout</a>"))
            | none =>
                Except.error (Thrown.typeError
                  "The first argument must be of type string or an instance of Buffer, ArrayBuffer, or Array or an Array-like Object. Received undefined")
        | none => Except.error (Thrown.typeError "Cannot read properties of undefined (reading 'split')")
        | some JSValue.null =>
            Except.error (Thrown.typeError "Cannot read properties of null (reading 'split')")
        | some _ => Except.error (Thrown.typeError "id_token.split is not a function")

/-! ## Sessions and `/logout` -/

/-- The memory store of express-session: session id to session record. -/
abbrev Store := List (String × Session)

/-- The store's `get(sid)`. -/
def Store.get (store : Store) (sid : String) : Option Session :=
  store.lookup sid

/-- The store's `set(sid, session)`. -/
def Store.set (store : Store) (sid : String) (session : Session) : Store :=
  (sid, session) :: store.filter fun e => e.1 != sid

/-- The store's `destroy(sid)`. -/
def Store.destroy (store : Store) (sid : String) : Store :=
  store.filter fun e => e.1 != sid

/-- The routes of the application. -/
inductive Route where
  | root
  | auth
  | authCallback (code state : Option QueryValue)
  | profile
  | logout

/-- The parts of a request the application reads. -/
structure Request where
  route : Route
  sessionCookie : Option String
  stateParam : SignedCookie

/-- What the outside world contributes while one request is served. -/
structure World where
  net : OutboundPost → NetReply
  randomBytes : Option (List Nat)
  freshSessionId : String

/-- The session middleware of lines 22-26: the stored session of the cookie's
id, or a new empty session under a newly generated id. -/
def loadSession (store : Store) (w : World) (sessionCookie : Option String) : String × Session :=
  match sessionCookie with
  | none => (w.freshSessionId, { tokenSet := none })
  | some sid =>
      match store.get sid with
      | some session => (sid, session)
      | none => (w.freshSessionId, { tokenSet := none })

/-- The result of serving one request. -/
structure Served where
  store : Store
  response : Except Thrown Response
  outbound : List OutboundPost

/-- The application: session middleware, then the handler of the route; the
session is written back when the response ends, unless it was destroyed. -/
def serve (cfg : Config) (w : World) (store : Store) (req : Request) : Served :=
  let loaded := loadSession store w req.sessionCookie
  match req.route with
  | Route.root =>
      { store := store.set loaded.1 loaded.2
        response := Except.ok (Response.send "<a href=\"/auth\">Login with Microsoft Entra ID</a>")
        outbound := [] }
  | Route.auth =>
      match auth cfg w.randomBytes with
      | Except.ok res => { store := store.set loaded.1 loaded.2, response := Except.ok res, outbound := [] }
      | Except.error e => { store := store, response := Except.error e, outbound := [] }
  | Route.authCallback code state =>
      let r := authCallback cfg w.net code state req.stateParam loaded.2
      { store := store.set loaded.1 r.session, response := Except.ok r.response, outbound := r.outbound }
  | Route.profile =>
      match profile loaded.2 with
      | Except.ok res => { store := store.set loaded.1 loaded.2, response := Except.ok res, outbound := [] }
      | Except.error e => { store := store, response := Except.error e, outbound := [] }
  | Route.logout =>
      { store := store.destroy loaded.1
        response := Except.ok (Response.redirectTo "/")
        outbound := [] }

/-! ## Sequences of requests -/

/-- The store after a sequence of requests, each served in its own world. -/
def run (cfg : Config) : Store → List (World × Request) → Store
  | store, [] => store
  | store, step :: rest => run cfg (serve cfg step.1 store step.2).store rest

/-- Whether a request is a callback that passes the state check and whose token
request succeeds: the one path on which line 90 writes `tokenSet`. -/
def isSuccessfulCallback (cfg : Config) (w : World) (req : Request) : Bool :=
  match req.route with
  | Route.authCallback code state =>
      !strictNe req.stateParam state &&
        (match axiosPost w.net (tokenRequest cfg code) with
         | Except.ok _ => true
         | Except.error _ => false)
  | _ => false

/-- No session in the store holds a `tokenSet`. -/
def Store.noTokens (store : Store) : Prop :=
  ∀ sid session, store.get sid = some session → session.tokenSet = none

/-! ## base64url, the encoding of token segments -/

/-- The 6-bit values of a byte sequence, most significant bits first; a last
group of one or two bytes is filled up with zero bits (RFC 4648, section 4). -/
def toSextets : List Nat → List Nat
  | a :: b :: c :: rest =>
      (a / 4) :: (a % 4 * 16 + b / 16) :: (b % 16 * 4 + c / 64) :: (c % 64) :: toSextets rest
  | [a, b] => [a / 4, a % 4 * 16 + b / 16, b % 16 * 4]
  | [a] => [a / 4, a % 4 * 16]
  | [] => []

/-- The URL-safe alphabet of RFC 4648, section 5: `A-Z a-z 0-9 - _`. -/
def base64urlAlphabet (v : Nat) : Char :=
  if v < 26 then Char.ofNat (65 + v)
  else if v < 52 then Char.ofNat (71 + v)
  else if v < 62 then Char.ofNat (v - 4)
  else if v = 62 then '-'
  else '_'

/-- The base64url encoding of a byte sequence without padding, the form the
segments of an identity token have. This is the encoding the specification
names; the application itself only decodes. -/
def base64urlEncode (bytes : List Nat) : List Char :=
  (toSextets bytes).map base64urlAlphabet

/-! ## Percent-decoding, the reading of a query-string field -/

/-- The value of a hexadecimal digit, either case. -/
def hexValue (c : Char) : Option Nat :=
  let n := c.toNat
  if 48 ≤ n ∧ n ≤ 57 then some (n - 48)
  else if 65 ≤ n ∧ n ≤ 70 then some (n - 55)
  else if 97 ≤ n ∧ n ≤ 102 then some (n - 87)
  else none

/-- The byte that two leading hexadecimal digits denote, if the text starts
with two of them. -/
def escapedByte : List Char → Option Nat
  | h :: l :: _ =>
      match hexValue h, hexValue l with
      | some a, some b => some (a * 16 + b)
      | _, _ => none
  | _ => none

/-- Percent-decoding with `skip` characters still to pass over, the digits of
an escape already read. -/
def percentDecodeFrom (skip : Nat) : List Char → List Nat
  | [] => []
  | c :: rest =>
      if 0 < skip then percentDecodeFrom (skip - 1) rest
      else
        match (if c = '%' then escapedByte rest else none) with
        | some b => b :: percentDecodeFrom 2 rest
        | none => utf8EncodeChar c ++ percentDecodeFrom 0 rest

/-- The bytes a reader of a percent-encoded field gets back (RFC 3986, section
2.1): `%` with two hexadecimal digits is the byte they denote, any other
character stands for its own UTF-8 bytes. The application only encodes; this is
the reading on the receiving side. -/
def percentDecode (field : List Char) : List Nat :=
  percentDecodeFrom 0 field

/-! ## The state check -/

/-- The state check lets a request through in two cases only: cookie and query
parameter both missing, or both the same string. -/
theorem strictNe_eq_false_iff (stateParam : SignedCookie) (state : Option QueryValue) :
    strictNe stateParam state = false ↔
      (stateParam = SignedCookie.absent ∧ state = none) ∨
        ∃ s, stateParam = SignedCookie.str s ∧ state = some (QueryValue.str s) := by
  cases stateParam <;> cases state <;> simp [strictNe]
  case str.some s q =>
    cases q <;> simp [strictNe]
    constructor
    · intro h; exact h.symm
    · intro h; exact h.symm

/-- A missing cookie never matches a present `state`, a present cookie never a
missing `state`, and two different strings never match. -/
theorem strictNe_of_one_absent_or_different :
    (∀ q, strictNe SignedCookie.absent (some q) = true) ∧
      (∀ s, strictNe (SignedCookie.str s) none = true) ∧
      (∀ q, strictNe SignedCookie.invalid q = true) ∧
      (∀ a b, a ≠ b → strictNe (SignedCookie.str a) (some (QueryValue.str b)) = true) := by
  refine ⟨fun q => rfl, fun s => rfl, fun q => ?_, fun a b h => ?_⟩
  · cases q <;> rfl
  · simpa [strictNe] using h

/-- The promise of `axios.post` resolves exactly on a reply with a 2xx status. -/
theorem axiosPost_ok_iff (net : OutboundPost → NetReply) (req : OutboundPost) (data : JSValue) :
    axiosPost net req = Except.ok data ↔
      ∃ status, net req = NetReply.response status data ∧ 200 ≤ status ∧ status < 300 := by
  unfold axiosPost
  cases hnet : net req with
  | networkError => simp
  | response status body =>
      by_cases hs : 200 ≤ status ∧ status < 300
      · simp only [hs, and_self, if_true, Except.ok.injEq, NetReply.response.injEq]
        constructor
        · intro h; exact ⟨status, ⟨rfl, h⟩, hs.1, hs.2⟩
        · rintro ⟨_, ⟨_, h⟩, _⟩; exact h
      · simp only [hs, if_false, NetReply.response.injEq, false_iff, not_exists, reduceCtorEq]
        rintro st ⟨⟨rfl, _⟩, h1, h2⟩
        exact hs ⟨h1, h2⟩

/-! ## Claims about `/auth/callback` -/

/-- C1: when the test `stateParam !== state` holds between the signed cookie and
the query parameter, the callback handler answers 422 with body "Invalid State",
makes no outbound request and leaves the session record as it was. -/
theorem authCallback_state_mismatch (cfg : Config) (net : OutboundPost → NetReply)
    (code state : Option QueryValue) (stateParam : SignedCookie) (session : Session)
    (h : strictNe stateParam state = true) :
    (authCallback cfg net code state stateParam session).response
        = { status := 422, payload := Payload.html "Invalid State", cookies := [] } ∧
      (authCallback cfg net code state stateParam session).outbound = [] ∧
      (authCallback cfg net code state stateParam session).session = session := by
  simp [authCallback, h, Response.statusSend]

/-- C1 at the scenario of the specification: nonce `abc123` in the cookie, `state=xyz999`
in the query. -/
theorem authCallback_state_mismatch_witness :
    strictNe (SignedCookie.str "abc123") (some (QueryValue.str "xyz999")) = true ∧
      (authCallback (config (some "cid") (some "secret") (some "k3y"))
          (fun _ => NetReply.response 200 (JSValue.obj []))
          (some (QueryValue.str "c0de")) (some (QueryValue.str "xyz999"))
          (SignedCookie.str "abc123") { tokenSet := none }).response.status = 422 :=
  ⟨by decide,
   congrArg Response.status
     (authCallback_state_mismatch (config (some "cid") (some "secret") (some "k3y"))
       (fun _ => NetReply.response 200 (JSValue.obj []))
       (some (QueryValue.str "c0de")) (some (QueryValue.str "xyz999"))
       (SignedCookie.str "abc123") { tokenSet := none } (by decide)).1⟩

/-- C2: when the state check passes and the token endpoint answers the one token
request with a 2xx status and body `B`, the session's `tokenSet` afterwards is `B`
and the response is a 302 redirect to `/profile`. -/
theorem authCallback_success_stores_body (cfg : Config) (net : OutboundPost → NetReply)
    (code state : Option QueryValue) (stateParam : SignedCookie) (session : Session)
    (status : Nat) (B : JSValue)
    (hstate : strictNe stateParam state = false)
    (hnet : net (tokenRequest cfg code) = NetReply.response status B)
    (h2xx : 200 ≤ status ∧ status < 300) :
    (authCallback cfg net code state stateParam session).session.tokenSet = some B ∧
      (authCallback cfg net code state stateParam session).response
        = { status := 302, payload := Payload.redirect "/profile", cookies := [] } ∧
      (authCallback cfg net code state stateParam session).outbound = [tokenRequest cfg code] := by
  simp [authCallback, hstate, axiosPost, hnet, h2xx, Response.redirectTo]

/-- C2 at the scenario of the specification: matching nonce `abc123`, the endpoint
returns the identity token `h.eyJzdWIiOiJ1MSJ9.s`. -/
theorem authCallback_success_stores_body_witness :
    (authCallback (config (some "cid") (some "secret") (some "k3y"))
        (fun _ => NetReply.response 200 (JSValue.obj [("id_token", JSValue.str "h.eyJzdWIiOiJ1MSJ9.s")]))
        (some (QueryValue.str "c0de")) (some (QueryValue.str "abc123"))
        (SignedCookie.str "abc123") { tokenSet := none }).session.tokenSet
      = some (JSValue.obj [("id_token", JSValue.str "h.eyJzdWIiOiJ1MSJ9.s")]) :=
  (authCallback_success_stores_body (config (some "cid") (some "secret") (some "k3y"))
    (fun _ => NetReply.response 200 (JSValue.obj [("id_token", JSValue.str "h.eyJzdWIiOiJ1MSJ9.s")]))
    (some (QueryValue.str "c0de")) (some (QueryValue.str "abc123"))
    (SignedCookie.str "abc123") { tokenSet := none } 200
    (JSValue.obj [("id_token", JSValue.str "h.eyJzdWIiOiJ1MSJ9.s")])
    (by decide) rfl (by decide)).1

/-- C3: when the state check passes and the token request fails, by a network
error or by a reply whose status is not 2xx, the response is a 302 redirect to `/`
and the session record is the one from before the request; a session without a
`tokenSet` still has none. -/
theorem authCallback_failure_keeps_session (cfg : Config) (net : OutboundPost → NetReply)
    (code state : Option QueryValue) (stateParam : SignedCookie) (session : Session)
    (hstate : strictNe stateParam state = false)
    (hfail : net (tokenRequest cfg code) = NetReply.networkError ∨
      ∃ status data, net (tokenRequest cfg code) = NetReply.response status data ∧
        ¬ (200 ≤ status ∧ status < 300)) :
    (authCallback cfg net code state stateParam session).response
        = { status := 302, payload := Payload.redirect "/", cookies := [] } ∧
      (authCallback cfg net code state stateParam session).session = session ∧
      (session.tokenSet = none →
        (authCallback cfg net code state stateParam session).session.tokenSet = none) := by
  rcases hfail with hnet | ⟨status, data, hnet, hs⟩
  · simp [authCallback, hstate, axiosPost, hnet, Response.redirectTo]
  · simp [authCallback, hstate, axiosPost, hnet, hs, Response.redirectTo]

/-- C3 at a concrete request: matching nonce, the endpoint answers 400. -/
theorem authCallback_failure_keeps_session_witness :
    (authCallback (config (some "cid") (some "secret") (some "k3y"))
        (fun _ => NetReply.response 400 (JSValue.obj [("error", JSValue.str "invalid_grant")]))
        (some (QueryValue.str "c0de")) (some (QueryValue.str "abc123"))
        (SignedCookie.str "abc123") { tokenSet := none }).response
      = { status := 302, payload := Payload.redirect "/", cookies := [] } :=
  (authCallback_failure_keeps_session (config (some "cid") (some "secret") (some "k3y"))
    (fun _ => NetReply.response 400 (JSValue.obj [("error", JSValue.str "invalid_grant")]))
    (some (QueryValue.str "c0de")) (some (QueryValue.str "abc123"))
    (SignedCookie.str "abc123") { tokenSet := none } (by decide)
    (Or.inr ⟨400, JSValue.obj [("error", JSValue.str "invalid_grant")], rfl, by decide⟩)).1

/-- C4, as stated, fails: with a matching nonce and a 200 reply whose body is the
empty object (no `id_token`), the handler redirects to `/profile`, not to `/`, and
stores that body as the session's `tokenSet`. -/
theorem authCallback_malformed_body_counterexample :
    (authCallback (config (some "cid") (some "secret") (some "k3y"))
        (fun _ => NetReply.response 200 (JSValue.obj []))
        (some (QueryValue.str "c0de")) (some (QueryValue.str "abc123"))
        (SignedCookie.str "abc123") { tokenSet := none }).response.payload
        = Payload.redirect "/profile" ∧
      (authCallback (config (some "cid") (some "secret") (some "k3y"))
        (fun _ => NetReply.response 200 (JSValue.obj []))
        (some (QueryValue.str "c0de")) (some (QueryValue.str "abc123"))
        (SignedCookie.str "abc123") { tokenSet := none }).response.payload
        ≠ Payload.redirect "/" ∧
      (authCallback (config (some "cid") (some "secret") (some "k3y"))
        (fun _ => NetReply.response 200 (JSValue.obj []))
        (some (QueryValue.str "c0de")) (some (QueryValue.str "abc123"))
        (SignedCookie.str "abc123") { tokenSet := none }).session.tokenSet
        = some (JSValue.obj []) ∧
      (JSValue.obj []).getProp "id_token" = none := by
  refine ⟨rfl, ?_, rfl, rfl⟩
  intro h
  have h2 : Payload.redirect "/profile" = Payload.redirect "/" := h
  injection h2 with h3
  exact absurd h3 (by decide)

/-- C4 amended: when the state check passes, the handler looks at the outcome of
the token request only. It redirects to `/` exactly when the request failed (a
network error or a status that is not 2xx); on every 2xx reply, whatever the body,
it stores the body as the session's `tokenSet` and redirects to `/profile`. -/
theorem authCallback_body_not_inspected (cfg : Config) (net : OutboundPost → NetReply)
    (code state : Option QueryValue) (stateParam : SignedCookie) (session : Session)
    (hstate : strictNe stateParam state = false) :
    ((authCallback cfg net code state stateParam session).response.payload = Payload.redirect "/" ↔
        (net (tokenRequest cfg code) = NetReply.networkError ∨
          ∃ status data, net (tokenRequest cfg code) = NetReply.response status data ∧
            ¬ (200 ≤ status ∧ status < 300))) ∧
      (∀ status data, net (tokenRequest cfg code) = NetReply.response status data →
        200 ≤ status ∧ status < 300 →
          (authCallback cfg net code state stateParam session).response.payload
              = Payload.redirect "/profile" ∧
            (authCallback cfg net code state stateParam session).session.tokenSet = some data) := by
  have hne : ("/profile" : String) ≠ "/" := by decide
  constructor
  · cases hnet : net (tokenRequest cfg code) with
    | networkError => simp [authCallback, hstate, axiosPost, hnet, Response.redirectTo]
    | response status data =>
        by_cases hs : 200 ≤ status ∧ status < 300
        · simp [authCallback, hstate, axiosPost, hnet, hs, Response.redirectTo, hne]
        · simp [authCallback, hstate, axiosPost, hnet, hs, Response.redirectTo]
          omega
  · intro status data hnet hs
    simp [authCallback, hstate, axiosPost, hnet, hs, Response.redirectTo]

/-- C4 amended, at a 200 reply that carries a JSON string instead of a token payload. -/
theorem authCallback_body_not_inspected_witness :
    (authCallback (config (some "cid") (some "secret") (some "k3y"))
        (fun _ => NetReply.response 200 (JSValue.str "oops"))
        (some (QueryValue.str "c0de")) none SignedCookie.absent
        { tokenSet := none }).session.tokenSet = some (JSValue.str "oops") :=
  ((authCallback_body_not_inspected (config (some "cid") (some "secret") (some "k3y"))
    (fun _ => NetReply.response 200 (JSValue.str "oops"))
    (some (QueryValue.str "c0de")) none SignedCookie.absent { tokenSet := none }
    (by decide)).2 200 (JSValue.str "oops") rfl (by decide)).2

/-! ## The session store -/

/-- A destroyed session id is no longer in the store. -/
theorem Store.get_destroy_self (store : Store) (sid : String) :
    (store.destroy sid).get sid = none := by
  simp only [Store.destroy, Store.get, List.lookup_eq_none_iff, List.mem_filter]
  rintro ⟨k, v⟩ ⟨_, hk⟩
  simp only [bne_iff_ne, ne_eq] at hk ⊢
  exact fun heq => hk heq.symm

/-- Destroying a session does not bring another one into the store. -/
theorem Store.get_destroy_of_get_none (store : Store) (sid other : String)
    (h : store.get sid = none) : (store.destroy other).get sid = none := by
  simp only [Store.destroy, Store.get, List.lookup_eq_none_iff, List.mem_filter] at h ⊢
  rintro p ⟨hp, _⟩
  exact h p hp

/-- A session found after a destroy was there before. -/
theorem Store.get_destroy_some (store : Store) (k sid : String) (s : Session)
    (h : (store.destroy k).get sid = some s) : store.get sid = some s := by
  induction store with
  | nil => simp [Store.destroy, Store.get] at h
  | cons e rest ih =>
      simp only [Store.destroy, Store.get] at ih h ⊢
      by_cases he : e.1 = k
      · have hf : List.filter (fun e => e.1 != k) (e :: rest)
            = List.filter (fun e => e.1 != k) rest := by
          simp [List.filter_cons, he]
        rw [hf] at h
        have hrest := ih h
        by_cases hs : sid = e.1
        · exfalso
          have hnone := Store.get_destroy_self rest k
          simp only [Store.destroy, Store.get] at hnone
          rw [hs, he, hnone] at h
          exact Option.noConfusion h
        · have hb : (sid == e.1) = false := by simpa using hs
          rw [List.lookup_cons, hb]
          exact hrest
      · have hf : List.filter (fun e => e.1 != k) (e :: rest)
            = e :: List.filter (fun e => e.1 != k) rest := by
          simp [List.filter_cons, he]
        rw [hf] at h
        by_cases hs : sid = e.1
        · have hb : (sid == e.1) = true := by simpa using hs
          rw [List.lookup_cons, hb] at h ⊢
          exact h
        · have hb : (sid == e.1) = false := by simpa using hs
          rw [List.lookup_cons, hb] at h ⊢
          exact ih h

/-- A session found after a write is the written one or was there before. -/
theorem Store.get_set_some (store : Store) (k sid : String) (v s : Session)
    (h : (store.set k v).get sid = some s) : s = v ∨ store.get sid = some s := by
  simp only [Store.set, Store.get] at h
  by_cases hs : sid = k
  · have hb : (sid == k) = true := by simpa using hs
    rw [List.lookup_cons, hb] at h
    exact Or.inl (Option.some.inj h).symm
  · have hb : (sid == k) = false := by simpa using hs
    rw [List.lookup_cons, hb] at h
    exact Or.inr (Store.get_destroy_some store k sid s h)

/-- On a store without token sets the session middleware yields a session without one. -/
theorem loadSession_noTokens (store : Store) (w : World) (cookie : Option String)
    (h : store.noTokens) : (loadSession store w cookie).2.tokenSet = none := by
  unfold loadSession
  cases cookie with
  | none => rfl
  | some sid =>
      cases hget : store.get sid with
      | none => simp only [hget]
      | some session =>
          simp only [hget]
          exact h sid session hget

/-- Serving a request that is not a successful callback keeps the store free of token sets. -/
theorem serve_noTokens (cfg : Config) (w : World) (store : Store) (req : Request)
    (h : store.noTokens) (hreq : isSuccessfulCallback cfg w req = false) :
    (serve cfg w store req).store.noTokens := by
  have hload := loadSession_noTokens store w req.sessionCookie h
  have hset : ∀ v : Session, v.tokenSet = none →
      (store.set (loadSession store w req.sessionCookie).1 v).noTokens := by
    intro v hv sid session hget
    rcases Store.get_set_some store _ sid v session hget with rfl | hold
    · exact hv
    · exact h sid session hold
  unfold serve
  cases hroute : req.route with
  | root => exact hset _ hload
  | auth =>
      simp only
      cases auth cfg w.randomBytes with
      | ok res => exact hset _ hload
      | error e => exact h
  | authCallback code state =>
      simp only
      apply hset
      simp only [isSuccessfulCallback, hroute] at hreq
      unfold authCallback
      by_cases hs : strictNe req.stateParam state = true
      · simp only [hs, if_true]
        exact hload
      · have hs2 : strictNe req.stateParam state = false := by simpa using hs
        simp only [hs2, Bool.not_false, Bool.true_and] at hreq
        cases hax : axiosPost w.net (tokenRequest cfg code) with
        | ok d => simp [hax] at hreq
        | error e =>
            simp only [hs2, Bool.false_eq_true, if_false, hax]
            exact hload
  | profile =>
      simp only
      cases profile (loadSession store w req.sessionCookie).2 with
      | ok res => exact hset _ hload
      | error e => exact h
  | logout =>
      intro sid session hget
      exact h sid session (Store.get_destroy_some store _ sid session hget)

/-- A sequence of requests without a successful callback keeps the store free of token sets. -/
theorem run_noTokens (cfg : Config) (steps : List (World × Request)) (store : Store)
    (h : store.noTokens)
    (hsteps : ∀ step ∈ steps, isSuccessfulCallback cfg step.1 step.2 = false) :
    (run cfg store steps).noTokens := by
  induction steps generalizing store with
  | nil => exact h
  | cons step rest ih =>
      simp only [List.mem_cons, forall_eq_or_imp] at hsteps
      exact ih _ (serve_noTokens cfg step.1 store step.2 h hsteps.1) hsteps.2

/-! ## Claims about `/profile` and `/logout` -/

/-- C6: a `/profile` request on a session without a `tokenSet` is answered with a
302 redirect to `/`, not with an HTML page. This holds for the handler on such a
session; for a `/profile` request after any sequence of requests, from an empty
store, none of which was a successful callback; and for the `/profile` request that
follows a `/logout` with the same session cookie, whatever the session held before. -/
theorem profile_unauthenticated_redirects :
    profile { tokenSet := none }
        = Except.ok { status := 302, payload := Payload.redirect "/", cookies := [] } ∧
      (∀ (cfg : Config) (steps : List (World × Request)) (w : World) (cookie : Option String)
          (sp : SignedCookie),
        (∀ step ∈ steps, isSuccessfulCallback cfg step.1 step.2 = false) →
        (serve cfg w (run cfg [] steps)
            { route := Route.profile, sessionCookie := cookie, stateParam := sp }).response
          = Except.ok { status := 302, payload := Payload.redirect "/", cookies := [] }) ∧
      (∀ (cfg : Config) (w1 w2 : World) (store : Store) (cookie : Option String)
          (sp1 sp2 : SignedCookie),
        (serve cfg w2
            (serve cfg w1 store
              { route := Route.logout, sessionCookie := cookie, stateParam := sp1 }).store
            { route := Route.profile, sessionCookie := cookie, stateParam := sp2 }).response
          = Except.ok { status := 302, payload := Payload.redirect "/", cookies := [] }) := by
  refine ⟨rfl, ?_, ?_⟩
  · intro cfg steps w cookie sp hsteps
    have hempty : Store.noTokens [] := by
      intro sid session hget
      simp [Store.get] at hget
    have hinv := run_noTokens cfg steps [] hempty hsteps
    have hload := loadSession_noTokens (run cfg [] steps) w cookie hinv
    have hsession : (loadSession (run cfg [] steps) w cookie).2 = { tokenSet := none } := by
      cases hl : (loadSession (run cfg [] steps) w cookie).2 with
      | mk tokenSet =>
          rw [hl] at hload
          simp only at hload
          rw [hload]
    simp only [serve, hsession]
    rfl
  · intro cfg w1 w2 store cookie sp1 sp2
    cases cookie with
    | none => rfl
    | some sid =>
        have hgone : ((serve cfg w1 store
            { route := Route.logout, sessionCookie := some sid, stateParam := sp1 }).store).get sid
            = none := by
          simp only [serve, loadSession]
          cases hget : store.get sid with
          | none => exact Store.get_destroy_of_get_none store sid _ hget
          | some session => exact Store.get_destroy_self store sid
        simp only [serve, loadSession] at hgone ⊢
        simp only [hgone]
        rfl

/-- C6 at a concrete history: the login page, `/auth`, then a callback with the wrong
`state`; the `/profile` request of the same browser is redirected to `/`. -/
theorem profile_unauthenticated_redirects_witness :
    (∀ step ∈
        [(({ net := fun _ => NetReply.networkError, randomBytes := some (List.range 24),
             freshSessionId := "sid1" } : World),
          ({ route := Route.root, sessionCookie := none, stateParam := SignedCookie.absent } : Request)),
         ({ net := fun _ => NetReply.networkError, randomBytes := some (List.range 24),
            freshSessionId := "sid2" },
          { route := Route.auth, sessionCookie := some "sid1", stateParam := SignedCookie.absent }),
         ({ net := fun _ => NetReply.response 200 (JSValue.obj [("id_token", JSValue.str "h.e30.s")]),
            randomBytes := none, freshSessionId := "sid3" },
          { route := Route.authCallback (some (QueryValue.str "c0de")) (some (QueryValue.str "xyz999")),
            sessionCookie := some "sid1",
            stateParam := SignedCookie.str "000102030405060708090a0b0c0d0e0f1011121314151617" })],
        isSuccessfulCallback (config (some "cid") (some "secret") (some "k3y")) step.1 step.2 = false) ∧
      (serve (config (some "cid") (some "secret") (some "k3y"))
          { net := fun _ => NetReply.networkError, randomBytes := none, freshSessionId := "sid4" }
          (run (config (some "cid") (some "secret") (some "k3y")) []
            [(({ net := fun _ => NetReply.networkError, randomBytes := some (List.range 24),
                 freshSessionId := "sid1" } : World),
              ({ route := Route.root, sessionCookie := none, stateParam := SignedCookie.absent } : Request)),
             ({ net := fun _ => NetReply.networkError, randomBytes := some (List.range 24),
                freshSessionId := "sid2" },
              { route := Route.auth, sessionCookie := some "sid1", stateParam := SignedCookie.absent }),
             ({ net := fun _ => NetReply.response 200 (JSValue.obj [("id_token", JSValue.str "h.e30.s")]),
                randomBytes := none, freshSessionId := "sid3" },
              { route := Route.authCallback (some (QueryValue.str "c0de")) (some (QueryValue.str "xyz999")),
                sessionCookie := some "sid1",
                stateParam := SignedCookie.str "000102030405060708090a0b0c0d0e0f1011121314151617" })])
          { route := Route.profile, sessionCookie := some "sid1",
            stateParam := SignedCookie.str "000102030405060708090a0b0c0d0e0f1011121314151617" }).response
        = Except.ok { status := 302, payload := Payload.redirect "/", cookies := [] } :=
  ⟨by decide, profile_unauthenticated_redirects.2.1 _ _ _ _ _ (by decide)⟩

/-- C7 fails on the code: the token endpoint answers the callback's token request
with 200 and a body without `id_token`; the callback stores it, and the `/profile`
request on that session throws a `TypeError` instead of completing with a 200 page. -/
theorem profile_throws_without_id_token :
    (serve (config (some "cid") (some "secret") (some "k3y"))
        { net := fun _ => NetReply.networkError, randomBytes := none, freshSessionId := "sid2" }
        (serve (config (some "cid") (some "secret") (some "k3y"))
          { net := fun _ => NetReply.response 200 (JSValue.obj [("access_token", JSValue.str "at")]),
            randomBytes := none, freshSessionId := "sid1" }
          []
          { route := Route.authCallback (some (QueryValue.str "c0de")) (some (QueryValue.str "abc123")),
            sessionCookie := none, stateParam := SignedCookie.str "abc123" }).store
        { route := Route.profile, sessionCookie := some "sid1",
          stateParam := SignedCookie.str "abc123" }).response
      = Except.error (Thrown.typeError "Cannot read properties of undefined (reading 'split')") ∧
    profile { tokenSet := some (JSValue.obj [("id_token", JSValue.str "no-dots")]) }
      = Except.error (Thrown.typeError
          "The first argument must be of type string or an instance of Buffer, ArrayBuffer, or Array or an Array-like Object. Received undefined") := by
  exact ⟨rfl, rfl⟩

/-- Splitting always yields at least one segment. -/
theorem splitOn_ne_nil (sep : Char) (l : List Char) : splitOn sep l ≠ [] := by
  cases l with
  | nil => simp [splitOn]
  | cons c cs =>
      unfold splitOn
      split_ifs
      · simp
      · split <;> simp

/-- There is a second segment exactly when the text contains the separator. -/
theorem splitOn_get?_one (sep : Char) (l : List Char) :
    (splitOn sep l).get? 1 = none ↔ sep ∉ l := by
  induction l with
  | nil => simp [splitOn]
  | cons c cs ih =>
      by_cases hc : c = sep
      · have h1 : splitOn sep (c :: cs) = [] :: splitOn sep cs := by
          simp only [splitOn, hc, if_true]
        rw [h1]
        cases hs : splitOn sep cs with
        | nil => exact absurd hs (splitOn_ne_nil sep cs)
        | cons seg segs => simp [hc]
      · have h1 : splitOn sep (c :: cs)
            = match splitOn sep cs with
              | [] => [[c]]
              | seg :: segs => (c :: seg) :: segs := by
          simp only [splitOn, hc, if_false]
        rw [h1]
        have hne : ¬ sep = c := fun e => hc e.symm
        cases hs : splitOn sep cs with
        | nil => exact absurd hs (splitOn_ne_nil sep cs)
        | cons seg segs =>
            rw [hs] at ih
            simp only [List.mem_cons, hne, false_or]
            rw [← ih]
            rfl

/-- The `/profile` handler completes on a stored `tokenSet` exactly when the value is
falsy (redirect) or its `id_token` is a string containing a dot (page); in every
other case it throws. -/
theorem profile_ok_iff (tokenSet : JSValue) :
    (∃ res, profile { tokenSet := some tokenSet } = Except.ok res) ↔
      tokenSet.truthy = false ∨
        ∃ tok, tokenSet.getProp "id_token" = some (JSValue.str tok) ∧ '.' ∈ tok.data := by
  unfold profile
  simp only
  cases ht : tokenSet.truthy with
  | false => simp
  | true =>
      simp only [Bool.not_true, Bool.false_eq_true, if_false, false_or]
      cases hp : tokenSet.getProp "id_token" with
      | none => simp
      | some v =>
          cases v with
          | str tok =>
              cases hs : (splitOn '.' tok.data).get? 1 with
              | none =>
                  have := (splitOn_get?_one '.' tok.data).1 hs
                  rw [List.get?_eq_getElem?] at hs
                  simp [this, hs]
              | some body =>
                  have hmem : '.' ∈ tok.data := by
                    by_contra hcon
                    rw [(splitOn_get?_one '.' tok.data).2 hcon] at hs
                    exact Option.noConfusion hs
                  rw [List.get?_eq_getElem?] at hs
                  simp [hmem, hs]
          | null => simp
          | bool b => simp
          | num x => simp
          | arr x => simp
          | obj x => simp

/-! ## The nonce is not consumed -/

/-- C9, as stated, fails: after `/auth` issued a nonce and a first callback request
passed the state check, a second callback request with the same cookie and the same
`state` is not rejected; it makes one more token request and is answered with a
redirect. -/
theorem authCallback_replay_counterexample :
    (serve (config (some "cid") (some "secret") (some "k3y"))
        { net := fun _ => NetReply.response 400 JSValue.null, randomBytes := none,
          freshSessionId := "sid2" }
        (serve (config (some "cid") (some "secret") (some "k3y"))
          { net := fun _ => NetReply.response 200 (JSValue.obj [("id_token", JSValue.str "h.e30.s")]),
            randomBytes := none, freshSessionId := "sid1" }
          []
          { route := Route.authCallback (some (QueryValue.str "c0de")) (some (QueryValue.str "abc123")),
            sessionCookie := none, stateParam := SignedCookie.str "abc123" }).store
        { route := Route.authCallback (some (QueryValue.str "c0de")) (some (QueryValue.str "abc123")),
          sessionCookie := some "sid1", stateParam := SignedCookie.str "abc123" }).outbound
      = [tokenRequest (config (some "cid") (some "secret") (some "k3y")) (some (QueryValue.str "c0de"))] ∧
    (serve (config (some "cid") (some "secret") (some "k3y"))
        { net := fun _ => NetReply.response 400 JSValue.null, randomBytes := none,
          freshSessionId := "sid2" }
        (serve (config (some "cid") (some "secret") (some "k3y"))
          { net := fun _ => NetReply.response 200 (JSValue.obj [("id_token", JSValue.str "h.e30.s")]),
            randomBytes := none, freshSessionId := "sid1" }
          []
          { route := Route.authCallback (some (QueryValue.str "c0de")) (some (QueryValue.str "abc123")),
            sessionCookie := none, stateParam := SignedCookie.str "abc123" }).store
        { route := Route.authCallback (some (QueryValue.str "c0de")) (some (QueryValue.str "abc123")),
          sessionCookie := some "sid1", stateParam := SignedCookie.str "abc123" }).response
      = Except.ok { status := 302, payload := Payload.redirect "/", cookies := [] } := by
  exact ⟨rfl, rfl⟩

/-- C9 amended: the callback handler does not consume the nonce. Its response sets
no cookie (so the `stateParam` cookie stays in the browser until its max age), and
it keeps no record of used nonces: a second callback request with the same cookie
and the same `state`, run on the session the first one left, passes the state check
again, makes its own token request and is answered with a 302 redirect. -/
theorem authCallback_nonce_not_consumed (cfg : Config) (net1 net2 : OutboundPost → NetReply)
    (code1 code2 : Option QueryValue) (n : String) (session : Session) :
    (authCallback cfg net1 code1 (some (QueryValue.str n)) (SignedCookie.str n) session).response.cookies
        = [] ∧
      (authCallback cfg net2 code2 (some (QueryValue.str n)) (SignedCookie.str n)
        (authCallback cfg net1 code1 (some (QueryValue.str n)) (SignedCookie.str n) session).session).outbound
        = [tokenRequest cfg code2] ∧
      (authCallback cfg net2 code2 (some (QueryValue.str n)) (SignedCookie.str n)
        (authCallback cfg net1 code1 (some (QueryValue.str n)) (SignedCookie.str n) session).session).response.status
        = 302 := by
  have hs : strictNe (SignedCookie.str n) (some (QueryValue.str n)) = false := by
    simp [strictNe]
  refine ⟨?_, ?_, ?_⟩
  · cases h : axiosPost net1 (tokenRequest cfg code1) <;>
      simp [authCallback, hs, h, Response.redirectTo]
  · cases h : axiosPost net2 (tokenRequest cfg code2) <;>
      simp [authCallback, hs, h]
  · cases h : axiosPost net2 (tokenRequest cfg code2) <;>
      simp [authCallback, hs, h, Response.redirectTo]

/-! ## Percent-encoding can be read back -/

/-- The UTF-8 encoding of a character consists of bytes. -/
theorem utf8EncodeChar_lt (c : Char) : ∀ b ∈ utf8EncodeChar c, b < 256 := by
  have hv : c.toNat < 0x110000 := by
    have := c.valid
    simp only [Char.toNat, UInt32.isValidChar, Nat.isValidChar] at this ⊢
    omega
  intro b hb
  unfold utf8EncodeChar at hb
  simp only at hb
  split_ifs at hb <;> simp only [List.mem_cons, List.mem_singleton, List.not_mem_nil, or_false] at hb <;> omega



/-- An upper-case hexadecimal digit has its value. -/
theorem hexValue_hexDigitUpper (n : Nat) (h : n < 16) : hexValue (hexDigitUpper n) = some n := by
  interval_cases n <;> rfl

/-- A character the table keeps is not the percent sign. -/
theorem ne_percent_of_noEscape (c : Char) (h : noEscape c = true) : c ≠ '%' := by
  intro hc
  rw [hc] at h
  exact absurd h (by decide)

/-- A character to pass over is passed over. -/
theorem percentDecodeFrom_skip (k : Nat) (c : Char) (rest : List Char) :
    percentDecodeFrom (k + 1) (c :: rest) = percentDecodeFrom k rest := by
  rw [percentDecodeFrom]
  simp only [Nat.zero_lt_succ, if_true, Nat.add_one_sub_one]

/-- An escape with two hexadecimal digits is read as the byte they denote. -/
theorem percentDecodeFrom_escape (h l : Char) (rest : List Char) (a b : Nat)
    (ha : hexValue h = some a) (hb : hexValue l = some b) :
    percentDecodeFrom 0 ('%' :: h :: l :: rest) = (a * 16 + b) :: percentDecodeFrom 0 rest := by
  rw [percentDecodeFrom]
  simp only [lt_irrefl, if_false, if_true, escapedByte, ha, hb]
  rw [percentDecodeFrom_skip, percentDecodeFrom_skip]

/-- A character other than the percent sign stands for its UTF-8 bytes. -/
theorem percentDecodeFrom_plain (c : Char) (rest : List Char) (hc : c ≠ '%') :
    percentDecodeFrom 0 (c :: rest) = utf8EncodeChar c ++ percentDecodeFrom 0 rest := by
  rw [percentDecodeFrom]
  simp only [lt_irrefl, if_false, hc]

/-- An entry of the `hexTable` is read back as its byte. -/
theorem percentDecodeFrom_hexTable (b : Nat) (rest : List Char) (hb : b < 256) :
    percentDecodeFrom 0 (hexTable b ++ rest) = b :: percentDecodeFrom 0 rest := by
  have h1 : hexValue (hexDigitUpper (b / 16)) = some (b / 16) :=
    hexValue_hexDigitUpper _ (by omega)
  have h2 : hexValue (hexDigitUpper (b % 16)) = some (b % 16) :=
    hexValue_hexDigitUpper _ (by omega)
  have hb2 : b / 16 * 16 + b % 16 = b := by omega
  have h := percentDecodeFrom_escape _ _ rest _ _ h1 h2
  rw [hb2] at h
  exact h

/-- A run of `hexTable` entries is read back as its bytes. -/
theorem percentDecodeFrom_flatMap_hexTable (bytes : List Nat) (rest : List Char)
    (h : ∀ b ∈ bytes, b < 256) :
    percentDecodeFrom 0 (bytes.flatMap hexTable ++ rest) = bytes ++ percentDecodeFrom 0 rest := by
  induction bytes with
  | nil => rfl
  | cons b bs ih =>
      simp only [List.mem_cons, forall_eq_or_imp] at h
      rw [List.flatMap_cons, List.append_assoc, percentDecodeFrom_hexTable _ _ h.1, ih h.2]
      rfl

/-- The escaped form of one character is read back as its UTF-8 bytes. -/
theorem percentDecodeFrom_qsEscapeChar (c : Char) (rest : List Char) :
    percentDecodeFrom 0 (qsEscapeChar c ++ rest) = utf8EncodeChar c ++ percentDecodeFrom 0 rest := by
  unfold qsEscapeChar
  by_cases hc : (decide (c.toNat < 0x80) && noEscape c) = true
  · have hne : c ≠ '%' := by
      simp only [Bool.and_eq_true] at hc
      exact ne_percent_of_noEscape c hc.2
    simp only [hc, if_true, List.cons_append, List.nil_append]
    exact percentDecodeFrom_plain c rest hne
  · simp only [hc, if_false, Bool.false_eq_true]
    exact percentDecodeFrom_flatMap_hexTable _ _ (utf8EncodeChar_lt c)

/-- Percent-decoding a field written by `querystring.escape` gives the UTF-8 bytes
of the escaped text. -/
theorem percentDecode_qsEscape (s : String) :
    percentDecode (qsEscape s).data = utf8Encode s.data := by
  have key : ∀ l : List Char,
      percentDecodeFrom 0 (l.flatMap qsEscapeChar) = l.flatMap utf8EncodeChar := by
    intro l
    induction l with
    | nil => rfl
    | cons c cs ih =>
        rw [List.flatMap_cons, percentDecodeFrom_qsEscapeChar, ih, List.flatMap_cons]
  exact key s.data

/-! ## The token request of a callback without cookie and state -/

/-- The token request spelled out: the endpoint, the content type, and the six
fields joined by `&`; the `code` field is written once per element for an array,
once otherwise, with a string escaped and anything else empty. -/
theorem tokenRequest_eq (cfg : Config) (code : Option QueryValue) :
    tokenRequest cfg code =
      { url := "https://login.microsoftonline.com/common/oauth2/v2.0/token?"
        body := "&".intercalate
          (["client_id=" ++ qsEscape (cfg.clientId.getD ""),
            "scope=" ++ qsEscape (" ".intercalate cfg.scope)] ++
           (match code with
            | none => ["code="]
            | some (QueryValue.str c) => ["code=" ++ qsEscape c]
            | some (QueryValue.arr items) =>
                items.map fun item =>
                  match item with
                  | QueryValue.str c => "code=" ++ qsEscape c
                  | _ => "code="
            | some (QueryValue.obj _) => ["code="]) ++
           ["redirect_uri=" ++ qsEscape cfg.redirectUri,
            "grant_type=authorization_code",
            "client_secret=" ++ qsEscape (cfg.clientSecret.getD "")])
        contentType := "application/x-www-form-urlencoded" } := by
  have henv : ∀ (k : String) (v : Option String),
      stringifyEntry k (ParamValue.ofEnv v) = [qsEscape k ++ "=" ++ qsEscape (v.getD "")] := by
    intro k v
    cases v with
    | none => simp [stringifyEntry, ParamValue.ofEnv, qsEscape]
    | some x => rfl
  have hstr : ∀ (k v : String),
      stringifyEntry k (ParamValue.str v) = [qsEscape k ++ "=" ++ qsEscape v] := fun _ _ => rfl
  have hk1 : qsEscape "client_id" ++ "=" = "client_id=" := by decide
  have hk2 : qsEscape "scope" ++ "=" = "scope=" := by decide
  have hk3 : qsEscape "code" ++ "=" = "code=" := by decide
  have hk4 : qsEscape "redirect_uri" ++ "=" = "redirect_uri=" := by decide
  have hk5 : qsEscape "grant_type" ++ "=" ++ qsEscape "authorization_code"
      = "grant_type=authorization_code" := by decide
  have hk6 : qsEscape "client_secret" ++ "=" = "client_secret=" := by decide
  have hcode : stringifyEntry "code"
        (match code with
         | none => ParamValue.undefined
         | some q => ParamValue.query q)
      = (match code with
         | none => ["code="]
         | some (QueryValue.str c) => ["code=" ++ qsEscape c]
         | some (QueryValue.arr items) =>
             items.map fun item =>
               match item with
               | QueryValue.str c => "code=" ++ qsEscape c
               | _ => "code="
         | some (QueryValue.obj _) => ["code="]) := by
    cases code with
    | none => simp only [stringifyEntry, hk3]
    | some q =>
        cases q with
        | str c => simp only [stringifyEntry, encodeStringified, hk3]
        | obj fields =>
            simp only [stringifyEntry, encodeStringified, hk3, String.append_empty]
        | arr items =>
            simp only [stringifyEntry, hk3]
            apply List.map_congr_left
            intro item _
            cases item <;> simp only [encodeStringified, String.append_empty]
  simp only [tokenRequest, qsStringify, joinScope, List.flatMap_cons, List.flatMap_nil, henv, hstr,
    hcode, hk1, hk2, hk4, hk5, hk6, List.append_nil, List.singleton_append, List.cons_append,
    List.nil_append, List.append_assoc]

/-- C10: a callback request with neither a signed `stateParam` cookie nor a `state`
query parameter passes the state check. The handler then makes exactly one outbound
request: a POST to the token endpoint, form-encoded, whose body is the six fields
joined by `&` with the supplied code in the `code` field (escaped, and read back
unchanged by percent-decoding); it answers with a 302 redirect, never with 422. -/
theorem authCallback_no_cookie_no_state (cfg : Config) (net : OutboundPost → NetReply)
    (code : Option QueryValue) (session : Session) :
    strictNe SignedCookie.absent none = false ∧
      (authCallback cfg net code none SignedCookie.absent session).outbound
        = [{ url := "https://login.microsoftonline.com/common/oauth2/v2.0/token?"
             body := "&".intercalate
               (["client_id=" ++ qsEscape (cfg.clientId.getD ""),
                 "scope=" ++ qsEscape (" ".intercalate cfg.scope)] ++
                (match code with
                 | none => ["code="]
                 | some (QueryValue.str c) => ["code=" ++ qsEscape c]
                 | some (QueryValue.arr items) =>
                     items.map fun item =>
                       match item with
                       | QueryValue.str c => "code=" ++ qsEscape c
                       | _ => "code="
                 | some (QueryValue.obj _) => ["code="]) ++
                ["redirect_uri=" ++ qsEscape cfg.redirectUri,
                 "grant_type=authorization_code",
                 "client_secret=" ++ qsEscape (cfg.clientSecret.getD "")])
             contentType := "application/x-www-form-urlencoded" }] ∧
      (∀ c : String, percentDecode (qsEscape c).data = utf8Encode c.data) ∧
      (authCallback cfg net code none SignedCookie.absent session).response.status = 302 ∧
      (authCallback cfg net code none SignedCookie.absent session).response.status ≠ 422 := by
  have hs : strictNe SignedCookie.absent none = false := rfl
  refine ⟨hs, ?_, percentDecode_qsEscape, ?_, ?_⟩
  · rw [← tokenRequest_eq]
    cases h : axiosPost net (tokenRequest cfg code) <;>
      simp [authCallback, hs, h]
  · cases h : axiosPost net (tokenRequest cfg code) <;>
      simp [authCallback, hs, h, Response.redirectTo]
  · cases h : axiosPost net (tokenRequest cfg code) <;>
      simp [authCallback, hs, h, Response.redirectTo]

/-- C10 at a concrete request: no cookie, no `state`, code `c0/de`; the body of the
one outbound request carries the code as `code=c0%2Fde`. -/
theorem authCallback_no_cookie_no_state_witness :
    (authCallback (config (some "cid") (some "secret") (some "k3y"))
        (fun _ => NetReply.networkError) (some (QueryValue.str "c0/de")) none
        SignedCookie.absent { tokenSet := none }).outbound
      = [{ url := "https://login.microsoftonline.com/common/oauth2/v2.0/token?"
           body := "client_id=cid&scope=openid%20email%20profile&code=c0%2Fde&" ++
             "redirect_uri=http%3A%2F%2Flocalhost%3A3000%2Fauth%2Fcallback&" ++
             "grant_type=authorization_code&client_secret=secret"
           contentType := "application/x-www-form-urlencoded" }] :=
  (authCallback_no_cookie_no_state (config (some "cid") (some "secret") (some "k3y"))
    (fun _ => NetReply.networkError) (some (QueryValue.str "c0/de")) { tokenSet := none }).2.1.trans
    rfl

/-! ## Claims about `/auth` -/

/-- Without the bytes, or without a usable cookie secret, `/auth` throws and sends
no response: `canSign` holds for a secret that is set and not empty only. -/
theorem auth_throws (cfg : Config) (buffer : List Nat) :
    auth cfg none = Except.error
        (Thrown.typeError "Cannot read properties of undefined (reading 'toString')") ∧
      (cfg.cookieSecret = none ∨ cfg.cookieSecret = some "" →
        auth cfg (some buffer) = Except.error
          (Thrown.error "cookieParser(\"secret\") required for signed cookies")) ∧
      (∀ secret, canSign (some secret) = true ↔ secret ≠ "") ∧
      canSign none = false := by
  refine ⟨rfl, ?_, ?_, rfl⟩
  · rintro (h | h) <;> simp [auth, h, canSign]
  · intro secret
    simp [canSign]

/-- A lower-case hexadecimal digit passes `querystring.escape` unchanged. -/
theorem qsEscapeChar_hexDigitLower (n : Nat) (h : n < 16) :
    qsEscapeChar (hexDigitLower n) = [hexDigitLower n] := by
  interval_cases n <;> rfl

/-- A lower-case hexadecimal digit is the character at its place in `0123456789abcdef`. -/
theorem hexDigitLower_eq_alphabet (n : Nat) (h : n < 16) :
    "0123456789abcdef".data.get? n = some (hexDigitLower n) := by
  interval_cases n <;> rfl

/-- A lower-case hexadecimal digit is one of `0-9a-f`. -/
theorem hexDigitLower_mem (n : Nat) (h : n < 16) :
    hexDigitLower n ∈ "0123456789abcdef".data := by
  interval_cases n <;> decide

/-- The hexadecimal text of a buffer passes `querystring.escape` unchanged. -/
theorem qsEscape_toHex (buffer : List Nat) :
    qsEscape (String.mk (toHex buffer)) = String.mk (toHex buffer) := by
  have key : ∀ l : List Nat, (toHex l).flatMap qsEscapeChar = toHex l := by
    intro l
    induction l with
    | nil => rfl
    | cons b rest ih =>
        have h1 : b % 256 / 16 < 16 := by omega
        have h2 : b % 16 < 16 := by omega
        simp only [toHex, List.flatMap_cons, List.flatMap_append, List.flatMap_nil,
          List.append_nil] at ih ⊢
        rw [ih, qsEscapeChar_hexDigitLower _ h1, qsEscapeChar_hexDigitLower _ h2]
        rfl
  simp only [qsEscape, key]

/-- Two hexadecimal digits per byte. -/
theorem toHex_length (buffer : List Nat) : (toHex buffer).length = 2 * buffer.length := by
  induction buffer with
  | nil => rfl
  | cons b rest ih =>
      simp only [toHex, List.flatMap_cons, List.length_append, List.length_cons,
        List.length_nil] at ih ⊢
      omega

/-- Every character of the hexadecimal text is one of `0-9a-f`. -/
theorem toHex_chars (buffer : List Nat) : ∀ c ∈ toHex buffer, c ∈ "0123456789abcdef".data := by
  intro c hc
  simp only [toHex, List.mem_flatMap, List.mem_cons, List.mem_singleton] at hc
  obtain ⟨b, _, hb⟩ := hc
  rcases hb with rfl | rfl | hb
  · exact hexDigitLower_mem _ (by omega)
  · exact hexDigitLower_mem _ (by omega)
  · simp at hb

/-- The hexadecimal text of a buffer starts with the two digits of the first byte. -/
theorem toHex_cons (b : Nat) (rest : List Nat) :
    toHex (b :: rest) = hexDigitLower (b % 256 / 16) :: hexDigitLower (b % 16) :: toHex rest := rfl

/-- The characters at the places `2 * i` and `2 * i + 1` of the hexadecimal text are
the digits of the high and the low half of byte `i`. -/
theorem toHex_digits (buffer : List Nat) (i x : Nat) (hx : buffer.get? i = some x)
    (hbyte : x < 256) :
    (toHex buffer).get? (2 * i) = some (hexDigitLower (x / 16)) ∧
      (toHex buffer).get? (2 * i + 1) = some (hexDigitLower (x % 16)) := by
  induction buffer generalizing i with
  | nil => simp at hx
  | cons b rest ih =>
      cases i with
      | zero =>
          simp only [List.get?_cons_zero, Option.some.injEq] at hx
          subst hx
          have hm : b % 256 = b := Nat.mod_eq_of_lt hbyte
          rw [toHex_cons, hm]
          exact ⟨rfl, rfl⟩
      | succ j =>
          simp only [List.get?_cons_succ] at hx
          have h := ih j hx
          rw [toHex_cons]
          have e1 : 2 * (j + 1) = (2 * j + 1) + 1 := by omega
          rw [e1]
          simp only [List.get?_cons_succ]
          exact h

/-- C8: with a cookie secret configured, for a buffer of 24 bytes from
`crypto.randomBytes`, `/auth` answers with a 302 redirect to the authorize endpoint
followed by the fields `client_id` (the escaped client id, read back unchanged by
percent-decoding), `response_type=code`, `redirect_uri` (the escaped configured URI),
`response_mode=query`, `scope` (the scopes joined by spaces, escaped) and `state=n`
joined by `&`; the one cookie set is the signed cookie `stateParam` with value `n` and
max age 300000 ms. Here `n` is the hexadecimal encoding of the buffer: 48 characters
out of `0-9a-f`, the two at the places `2 * i` and `2 * i + 1` being the digits of
the high and the low half of byte `i`. -/
theorem auth_redirect_and_cookie (clientId clientSecret : Option String) (secret : String)
    (buffer : List Nat) (hsecret : secret ≠ "") (hlen : buffer.length = 24)
    (hbytes : ∀ x ∈ buffer, x < 256) :
    auth (config clientId clientSecret (some secret)) (some buffer) = Except.ok
        { status := 302
          payload := Payload.redirect
            ("https://login.microsoftonline.com/common/oauth2/v2.0/authorize?" ++
              "&".intercalate
                ["client_id=" ++ qsEscape (clientId.getD ""),
                 "response_type=code",
                 "redirect_uri=http%3A%2F%2Flocalhost%3A3000%2Fauth%2Fcallback",
                 "response_mode=query",
                 "scope=openid%20email%20profile",
                 "state=" ++ String.mk (toHex buffer)])
          cookies := [{ name := "stateParam", value := String.mk (toHex buffer),
                        maxAge := 300000, signed := true }] } ∧
      (String.mk (toHex buffer)).length = 48 ∧
      (∀ c ∈ (String.mk (toHex buffer)).data, c ∈ "0123456789abcdef".data) ∧
      (∀ i x, buffer.get? i = some x →
        ∃ hi lo, "0123456789abcdef".data.get? (x / 16) = some hi ∧
          "0123456789abcdef".data.get? (x % 16) = some lo ∧
          (String.mk (toHex buffer)).data.get? (2 * i) = some hi ∧
          (String.mk (toHex buffer)).data.get? (2 * i + 1) = some lo) ∧
      percentDecode (qsEscape (clientId.getD "")).data = utf8Encode (clientId.getD "").data := by
  refine ⟨?_, ?_, toHex_chars buffer, ?_, percentDecode_qsEscape _⟩
  · have hfields : qsStringify
          [("client_id", ParamValue.ofEnv (config clientId clientSecret (some secret)).clientId),
           ("response_type", ParamValue.str "code"),
           ("redirect_uri", ParamValue.str (config clientId clientSecret (some secret)).redirectUri),
           ("response_mode", ParamValue.str "query"),
           ("scope", ParamValue.str (joinScope (config clientId clientSecret (some secret)).scope)),
           ("state", ParamValue.str (String.mk (toHex buffer)))]
        = "&".intercalate
            ["client_id=" ++ qsEscape (clientId.getD ""),
             "response_type=code",
             "redirect_uri=http%3A%2F%2Flocalhost%3A3000%2Fauth%2Fcallback",
             "response_mode=query",
             "scope=openid%20email%20profile",
             "state=" ++ String.mk (toHex buffer)] := by
      have h1 : stringifyEntry "client_id"
            (ParamValue.ofEnv (config clientId clientSecret (some secret)).clientId)
          = ["client_id=" ++ qsEscape (clientId.getD "")] := by
        cases clientId with
        | none => rfl
        | some cid => rfl
      have h6 : stringifyEntry "state" (ParamValue.str (String.mk (toHex buffer)))
          = ["state=" ++ String.mk (toHex buffer)] := by
        simp only [stringifyEntry, qsEscape_toHex]
        rfl
      simp only [qsStringify, List.flatMap_cons, List.flatMap_nil, h1, h6]
      rfl
    have hsign : canSign (config clientId clientSecret (some secret)).cookieSecret = true := by
      simp [canSign, config, hsecret]
    simp only [auth, hsign, Bool.not_true, Bool.false_eq_true, if_false, hfields]
  · simp [String.length, toHex_length, hlen]
  · intro i x hx
    have hbyte : x < 256 := hbytes x (List.get?_mem hx)
    obtain ⟨h1, h2⟩ := toHex_digits buffer i x hx hbyte
    exact ⟨hexDigitLower (x / 16), hexDigitLower (x % 16),
      hexDigitLower_eq_alphabet _ (by omega), hexDigitLower_eq_alphabet _ (by omega), h1, h2⟩

/-- C8 at the buffer of the bytes 0 to 23 with client id `my id`. -/
theorem auth_redirect_and_cookie_witness :
    ("k3y" : String) ≠ "" ∧ (List.range 24).length = 24 ∧ (∀ x ∈ List.range 24, x < 256) ∧
      auth (config (some "my id") none (some "k3y")) (some (List.range 24)) = Except.ok
        { status := 302
          payload := Payload.redirect
            ("https://login.microsoftonline.com/common/oauth2/v2.0/authorize?" ++
              "client_id=my%20id&response_type=code&" ++
              "redirect_uri=http%3A%2F%2Flocalhost%3A3000%2Fauth%2Fcallback&" ++
              "response_mode=query&scope=openid%20email%20profile&" ++
              "state=000102030405060708090a0b0c0d0e0f1011121314151617")
          cookies := [{ name := "stateParam",
                        value := "000102030405060708090a0b0c0d0e0f1011121314151617",
                        maxAge := 300000, signed := true }] } :=
  ⟨by decide, rfl, by decide,
   (auth_redirect_and_cookie (some "my id") none "k3y" (List.range 24) (by decide) rfl
      (by decide)).1.trans rfl⟩

/-! ## The profile page reproduces the payload -/

/-- Every character of the URL-safe alphabet is one code unit, is legal for the
decoder with its own 6-bit value, and is not a dot. -/
theorem base64urlAlphabet_decodes (v : Nat) (h : v < 64) :
    utf16Units (base64urlAlphabet v) = [(base64urlAlphabet v).toNat] ∧
      unbase64 ((base64urlAlphabet v).toNat % 256) = some v ∧
      base64urlAlphabet v ≠ '.' := by
  interval_cases v <;> decide

/-- The 6-bit values of bytes are below 64. -/
theorem toSextets_lt (bytes : List Nat) (h : ∀ b ∈ bytes, b < 256) :
    ∀ v ∈ toSextets bytes, v < 64 := by
  induction bytes using toSextets.induct with
  | case1 a b c rest ih =>
      simp only [List.mem_cons, forall_eq_or_imp] at h
      obtain ⟨ha, hb, hc, hrest⟩ := h
      simp only [toSextets, List.mem_cons, forall_eq_or_imp]
      refine ⟨by omega, by omega, by omega, by omega, ih hrest⟩
  | case2 a b =>
      simp only [List.mem_cons, forall_eq_or_imp] at h
      obtain ⟨ha, hb, _⟩ := h
      simp only [toSextets, List.mem_cons, forall_eq_or_imp]
      refine ⟨by omega, by omega, by omega, by simp⟩
  | case3 a =>
      simp only [List.mem_cons, forall_eq_or_imp] at h
      obtain ⟨ha, _⟩ := h
      simp only [toSextets, List.mem_cons, forall_eq_or_imp]
      refine ⟨by omega, by omega, by simp⟩
  | case4 => simp [toSextets]

/-- Grouping the 6-bit values of a byte sequence gives the bytes back. -/
theorem base64Groups_toSextets (bytes : List Nat) (h : ∀ b ∈ bytes, b < 256) :
    base64Groups (toSextets bytes) = bytes := by
  induction bytes using toSextets.induct with
  | case1 a b c rest ih =>
      simp only [List.mem_cons, forall_eq_or_imp] at h
      obtain ⟨ha, hb, hc, hrest⟩ := h
      simp only [toSextets, base64Groups, ih hrest, List.cons.injEq, and_true]
      refine ⟨by omega, by omega, by omega⟩
  | case2 a b =>
      simp only [List.mem_cons, forall_eq_or_imp] at h
      obtain ⟨ha, hb, _⟩ := h
      simp only [toSextets, base64Groups, List.cons.injEq, and_true]
      refine ⟨by omega, by omega⟩
  | case3 a =>
      simp only [List.mem_cons, forall_eq_or_imp] at h
      obtain ⟨ha, _⟩ := h
      simp only [toSextets, base64Groups, List.cons.injEq, and_true]
      omega
  | case4 => rfl

/-- The decoder reads the characters of an encoded segment, followed by any
number of `=`, back as the 6-bit values they stand for. -/
theorem base64Sextets_alphabet (l : List Nat) (k : Nat) (h : ∀ v ∈ l, v < 64) :
    base64Sextets ((l.map base64urlAlphabet ++ List.replicate k '=').flatMap utf16Units) = l := by
  induction l with
  | nil =>
      cases k with
      | zero => rfl
      | succ k => rfl
  | cons v rest ih =>
      simp only [List.mem_cons, forall_eq_or_imp] at h
      obtain ⟨hv, hrest⟩ := h
      obtain ⟨h1, h2, _⟩ := base64urlAlphabet_decodes v hv
      simp only [List.map_cons, List.cons_append, List.flatMap_cons, h1, List.singleton_append,
        base64Sextets, h2, List.nil_append, ih hrest]

/-- The decoder on a non-empty input: one step, then the rest. -/
theorem utf8DecodeFrom_cons (st : Utf8State) (b : Nat) (bs : List Nat) :
    utf8DecodeFrom st (b :: bs) = (utf8Step st b).2 ++ utf8DecodeFrom (utf8Step st b).1 bs := rfl

/-- Outside a sequence a byte is read as a lead byte. -/
theorem utf8Step_initial (b : Nat) : utf8Step Utf8State.initial b = utf8Lead b := rfl

/-- An ASCII byte is emitted at once. -/
theorem utf8Lead_one (b : Nat) (h : b ≤ 0x7F) :
    utf8Lead b = (Utf8State.initial, [Char.ofNat b]) := by
  simp only [utf8Lead, h, if_true]

/-- The lead byte of a two-byte sequence. -/
theorem utf8Lead_two (b : Nat) (h : 0xC2 ≤ b ∧ b ≤ 0xDF) :
    utf8Lead b
      = ({ codePoint := b % 32, needed := 1, seen := 0, lower := 0x80, upper := 0xBF }, []) := by
  have h0 : ¬ b ≤ 0x7F := by omega
  simp only [utf8Lead, h0, h, and_self, if_true, if_false]

/-- The lead byte of a three-byte sequence. -/
theorem utf8Lead_three (b : Nat) (h : 0xE0 ≤ b ∧ b ≤ 0xEF) :
    utf8Lead b
      = ({ codePoint := b % 16, needed := 2, seen := 0,
           lower := if b = 0xE0 then 0xA0 else 0x80,
           upper := if b = 0xED then 0x9F else 0xBF }, []) := by
  have h0 : ¬ b ≤ 0x7F := by omega
  have h1 : ¬ (0xC2 ≤ b ∧ b ≤ 0xDF) := by omega
  simp only [utf8Lead, h0, h1, h, and_self, if_true, if_false]

/-- The lead byte of a four-byte sequence. -/
theorem utf8Lead_four (b : Nat) (h : 0xF0 ≤ b ∧ b ≤ 0xF4) :
    utf8Lead b
      = ({ codePoint := b % 8, needed := 3, seen := 0,
           lower := if b = 0xF0 then 0x90 else 0x80,
           upper := if b = 0xF4 then 0x8F else 0xBF }, []) := by
  have h0 : ¬ b ≤ 0x7F := by omega
  have h1 : ¬ (0xC2 ≤ b ∧ b ≤ 0xDF) := by omega
  have h2 : ¬ (0xE0 ≤ b ∧ b ≤ 0xEF) := by omega
  simp only [utf8Lead, h0, h1, h2, h, and_self, if_true, if_false]

/-- The last continuation byte of a sequence emits the code point. -/
theorem utf8Step_last (st : Utf8State) (b : Nat) (hn : st.needed ≠ 0)
    (hl : st.lower ≤ b) (hu : b ≤ st.upper) (hlast : st.seen + 1 = st.needed) :
    utf8Step st b = (Utf8State.initial, [Char.ofNat (st.codePoint * 64 + b % 64)]) := by
  have hr : ¬ (b < st.lower ∨ st.upper < b) := by omega
  simp only [utf8Step, hn, hr, hlast, if_true, if_false]

/-- A continuation byte that is not the last one is accumulated. -/
theorem utf8Step_more (st : Utf8State) (b : Nat) (hn : st.needed ≠ 0)
    (hl : st.lower ≤ b) (hu : b ≤ st.upper) (hmore : st.seen + 1 ≠ st.needed) :
    utf8Step st b
      = ({ codePoint := st.codePoint * 64 + b % 64, needed := st.needed,
           seen := st.seen + 1, lower := 0x80, upper := 0xBF }, []) := by
  have hr : ¬ (b < st.lower ∨ st.upper < b) := by omega
  simp only [utf8Step, hn, hr, hmore, if_false]

/-- The decoder reads the encoding of a scalar value back as that value. -/
theorem utf8DecodeFrom_encodeNat (n : Nat) (rest : List Nat)
    (hv : n < 0xD800 ∨ (0xDFFF < n ∧ n < 0x110000)) :
    utf8DecodeFrom Utf8State.initial
        ((if n < 0x80 then [n]
          else if n < 0x800 then [0xC0 + n / 64, 0x80 + n % 64]
          else if n < 0x10000 then [0xE0 + n / 4096, 0x80 + n / 64 % 64, 0x80 + n % 64]
          else [0xF0 + n / 262144, 0x80 + n / 4096 % 64, 0x80 + n / 64 % 64, 0x80 + n % 64])
          ++ rest)
      = Char.ofNat n :: utf8DecodeFrom Utf8State.initial rest := by
  by_cases h1 : n < 0x80
  · simp only [h1, if_true, List.cons_append, List.nil_append]
    rw [utf8DecodeFrom_cons, utf8Step_initial, utf8Lead_one n (by omega)]
    rfl
  · by_cases h2 : n < 0x800
    · simp only [h1, h2, if_true, if_false, List.cons_append, List.nil_append]
      rw [utf8DecodeFrom_cons, utf8Step_initial, utf8Lead_two _ ⟨by omega, by omega⟩]
      dsimp only
      rw [utf8DecodeFrom_cons,
        utf8Step_last _ _ (by simp) (by dsimp only; omega) (by dsimp only; omega) rfl]
      dsimp only
      have hcp : (0xC0 + n / 64) % 32 * 64 + (0x80 + n % 64) % 64 = n := by omega
      rw [hcp]
      rfl
    · by_cases h3 : n < 0x10000
      · simp only [h1, h2, h3, if_true, if_false, List.cons_append, List.nil_append]
        rw [utf8DecodeFrom_cons, utf8Step_initial, utf8Lead_three _ ⟨by omega, by omega⟩]
        dsimp only
        rw [utf8DecodeFrom_cons,
          utf8Step_more _ _ (by simp) (by dsimp only; split_ifs <;> omega)
            (by dsimp only; split_ifs <;> omega) (by simp)]
        dsimp only
        rw [utf8DecodeFrom_cons,
          utf8Step_last _ _ (by simp) (by dsimp only; omega) (by dsimp only; omega) rfl]
        dsimp only
        have hcp : ((0xE0 + n / 4096) % 16 * 64 + (0x80 + n / 64 % 64) % 64) * 64
            + (0x80 + n % 64) % 64 = n := by omega
        rw [hcp]
        rfl
      · simp only [h1, h2, h3, if_false, List.cons_append, List.nil_append]
        rw [utf8DecodeFrom_cons, utf8Step_initial, utf8Lead_four _ ⟨by omega, by omega⟩]
        dsimp only
        rw [utf8DecodeFrom_cons,
          utf8Step_more _ _ (by simp) (by dsimp only; split_ifs <;> omega)
            (by dsimp only; split_ifs <;> omega) (by simp)]
        dsimp only
        rw [utf8DecodeFrom_cons,
          utf8Step_more _ _ (by simp) (by dsimp only; omega) (by dsimp only; omega) (by simp)]
        dsimp only
        rw [utf8DecodeFrom_cons,
          utf8Step_last _ _ (by simp) (by dsimp only; omega) (by dsimp only; omega) rfl]
        dsimp only
        have hcp : (((0xF0 + n / 262144) % 8 * 64 + (0x80 + n / 4096 % 64) % 64) * 64
            + (0x80 + n / 64 % 64) % 64) * 64 + (0x80 + n % 64) % 64 = n := by omega
        rw [hcp]
        rfl

/-- The decoder reads the encoding of a character back as that character. -/
theorem utf8DecodeFrom_encodeChar (c : Char) (rest : List Nat) :
    utf8DecodeFrom Utf8State.initial (utf8EncodeChar c ++ rest)
      = c :: utf8DecodeFrom Utf8State.initial rest := by
  have hv : c.toNat < 0xD800 ∨ (0xDFFF < c.toNat ∧ c.toNat < 0x110000) := by
    have := c.valid
    simp only [Char.toNat, UInt32.isValidChar, Nat.isValidChar] at this ⊢
    omega
  have h := utf8DecodeFrom_encodeNat c.toNat rest hv
  rw [Char.ofNat_toNat] at h
  exact h

/-- Decoding the UTF-8 encoding of a text gives the text. -/
theorem bufferToUtf8_utf8Encode (t : List Char) : bufferToUtf8 (utf8Encode t) = t := by
  induction t with
  | nil => rfl
  | cons c cs ih =>
      simp only [bufferToUtf8, utf8Encode, List.flatMap_cons] at ih ⊢
      rw [utf8DecodeFrom_encodeChar, ih]

/-- The UTF-8 encoding of a text consists of bytes. -/
theorem utf8Encode_lt (t : List Char) : ∀ b ∈ utf8Encode t, b < 256 := by
  intro b hb
  simp only [utf8Encode, List.mem_flatMap] at hb
  obtain ⟨c, _, hc⟩ := hb
  exact utf8EncodeChar_lt c b hc

/-- Splitting a text whose first separator comes right after `h`. -/
theorem splitOn_append (sep : Char) (h : List Char) (rest : List Char) (hh : sep ∉ h) :
    splitOn sep (h ++ sep :: rest) = h :: splitOn sep rest := by
  induction h with
  | nil => simp [splitOn]
  | cons c cs ih =>
      simp only [List.mem_cons, not_or] at hh
      have hne : ¬ c = sep := fun e => hh.1 e.symm
      have hstep : splitOn sep (c :: (cs ++ sep :: rest))
          = match splitOn sep (cs ++ sep :: rest) with
            | [] => [[c]]
            | seg :: segs => (c :: seg) :: segs := by
        simp only [splitOn, hne, if_false]
      rw [List.cons_append, hstep, ih hh.2]


/-- An encoded segment, with or without padding, contains no dot. -/
theorem base64urlEncode_no_dot (bytes : List Nat) (k : Nat) (h : ∀ b ∈ bytes, b < 256) :
    '.' ∉ base64urlEncode bytes ++ List.replicate k '=' := by
  intro hmem
  rcases List.mem_append.1 hmem with hmem | hmem
  · simp only [base64urlEncode, List.mem_map] at hmem
    obtain ⟨v, hv, heq⟩ := hmem
    exact (base64urlAlphabet_decodes v (toSextets_lt bytes h v hv)).2.2 heq
  · exact absurd (List.eq_of_mem_replicate hmem) (by decide)

/-- Node's decoder inverts the base64url encoding of a byte sequence, padded or not. -/
theorem bufferFromBase64_base64urlEncode (bytes : List Nat) (k : Nat)
    (h : ∀ b ∈ bytes, b < 256) :
    bufferFromBase64 (base64urlEncode bytes ++ List.replicate k '=') = bytes := by
  simp only [bufferFromBase64, base64urlEncode]
  rw [base64Sextets_alphabet _ k (toSextets_lt bytes h), base64Groups_toSextets bytes h]

/-- C5: for every text `t` and every token `h.p.s` stored as the session's `id_token`,
where `h` has no dot and `p` is the base64url encoding of the UTF-8 bytes of `t`
(followed by any number `k` of padding characters, none in an identity token), the
`/profile` response is 200 with the body `<h1>Profile</h1><span>`, then `t`, then
`</span><br><br><a href="/logout">logout</a>`; the bytes of that body are the bytes
of the three parts, those of `t` unchanged in the middle. -/
theorem profile_renders_payload (h s t : String) (k : Nat) (tokenSet : JSValue)
    (hh : '.' ∉ h.data)
    (htoken : tokenSet.getProp "id_token" = some (JSValue.str
      (h ++ "." ++ String.mk (base64urlEncode (utf8Encode t.data) ++ List.replicate k '=')
        ++ "." ++ s))) :
    profile { tokenSet := some tokenSet } = Except.ok
        { status := 200
          payload := Payload.html
            ("<h1>Profile</h1><span>" ++ t ++ "</span><br><br><a href=\"/logout\">logout</a>")
          cookies := [] } ∧
      utf8Encode
          ("<h1>Profile</h1><span>" ++ t ++ "</span><br><br><a href=\"/logout\">logout</a>").data
        = utf8Encode "<h1>Profile</h1><span>".data ++ utf8Encode t.data ++
            utf8Encode "</span><br><br><a href=\"/logout\">logout</a>".data := by
  constructor
  · have hsplit : (splitOn '.' (h ++ "." ++
        String.mk (base64urlEncode (utf8Encode t.data) ++ List.replicate k '=')
        ++ "." ++ s).data).get? 1
          = some (base64urlEncode (utf8Encode t.data) ++ List.replicate k '=') := by
      have hdata : (h ++ "." ++
          String.mk (base64urlEncode (utf8Encode t.data) ++ List.replicate k '=')
          ++ "." ++ s).data
          = h.data ++ '.' ::
              ((base64urlEncode (utf8Encode t.data) ++ List.replicate k '=') ++ '.' :: s.data) := by
        simp [String.data_append, List.append_assoc]
      rw [hdata, splitOn_append _ _ _ hh,
        splitOn_append _ _ _ (base64urlEncode_no_dot _ k (utf8Encode_lt t.data))]
      rfl
    cases tokenSet with
    | obj fields =>
        simp only [JSValue.getProp] at htoken
        simp only [profile, JSValue.truthy, JSValue.getProp, htoken, hsplit, Bool.not_true,
          Bool.false_eq_true, if_false,
          bufferFromBase64_base64urlEncode _ k (utf8Encode_lt t.data), bufferToUtf8_utf8Encode,
          Response.send]
    | null => simp [JSValue.getProp] at htoken
    | bool b => simp [JSValue.getProp] at htoken
    | num x => simp [JSValue.getProp] at htoken
    | str x => simp [JSValue.getProp] at htoken
    | arr x => simp [JSValue.getProp] at htoken
  · simp only [String.data_append, utf8Encode, List.flatMap_append]

/-- C5 at the scenario of the specification: the token `h.eyJzdWIiOiJ1MSJ9.s` renders
the claims text with `"sub":"u1"`. -/
theorem profile_renders_payload_witness :
    '.' ∉ "h".data ∧
      profile { tokenSet := some (JSValue.obj [("id_token", JSValue.str "h.eyJzdWIiOiJ1MSJ9.s")]) }
        = Except.ok
          { status := 200
            payload := Payload.html
              "<h1>Profile</h1><span>\x7b\"sub\":\"u1\"\x7d</span><br><br><a href=\"/logout\">logout</a>"
            cookies := [] } :=
  ⟨by decide,
   (profile_renders_payload "h" "s" "\x7b\"sub\":\"u1\"\x7d" 0
    (JSValue.obj [("id_token", JSValue.str "h.eyJzdWIiOiJ1MSJ9.s")]) (by decide) rfl).1⟩

end EntraOidc
